import Mathlib

/-!
Verification of the `lizards_brains` focus-timer core: the timer state
machine and tick scheduler (`src-tauri/src/timer.rs`) and the durable
session store (`src-tauri/src/state.rs`).

Rust strings are embedded as lists of characters (`Str`); character
classes, trimming, UTF-8 byte length and the byte-wise (SQLite `memcmp`)
ordering are defined explicitly so that everything evaluates inside the
kernel.
-/

namespace LizardsBrains

/-- Rust strings, embedded as their sequence of Unicode scalar values. -/
abbrev Str := List Char

/-- Embedding of Rust `char::is_whitespace` (the Unicode `White_Space`
property), used by `str::trim`. -/
def rustIsWhitespace (c : Char) : Bool :=
  let n := c.toNat
  n = 0x20 || (0x9 ≤ n && n ≤ 0xD) || n = 0x85 || n = 0xA0 || n = 0x1680 ||
  (0x2000 ≤ n && n ≤ 0x200A) || n = 0x2028 || n = 0x2029 || n = 0x202F ||
  n = 0x205F || n = 0x3000

/-- Embedding of Rust `char::is_control` (the Unicode `Cc` category:
`U+0000`–`U+001F` and `U+007F`–`U+009F`). -/
def rustIsControl (c : Char) : Bool :=
  c.toNat < 0x20 || (0x7F ≤ c.toNat && c.toNat ≤ 0x9F)

/-- Embedding of Rust `str::trim`: drop leading and trailing whitespace. -/
def trimStr (s : Str) : Str :=
  ((s.dropWhile rustIsWhitespace).reverse.dropWhile rustIsWhitespace).reverse

/-- Number of bytes of the UTF-8 encoding of one character
(Rust `char::len_utf8`). -/
def charUtf8Len (c : Char) : Nat :=
  if c.toNat < 0x80 then 1
  else if c.toNat < 0x800 then 2
  else if c.toNat < 0x10000 then 3
  else 4

/-- Embedding of Rust `String::len`: the UTF-8 byte length. -/
def byteLen (s : Str) : Nat := (s.map charUtf8Len).sum

/-- Byte-wise string order. For UTF-8 encoded text, SQLite's `memcmp`
(`BINARY`) collation coincides with the lexicographic order on Unicode
scalar values, which is what this implements. `strLe a b` means `a <= b`. -/
def strLe : Str → Str → Bool
  | [], _ => true
  | _ :: _, [] => false
  | a :: as, b :: bs =>
    if a.toNat < b.toNat then true
    else if b.toNat < a.toNat then false
    else strLe as bs

theorem strLe_total (a b : Str) : strLe a b || strLe b a := by
  induction a generalizing b with
  | nil => simp [strLe]
  | cons x xs ih =>
    cases b with
    | nil => simp [strLe]
    | cons y ys =>
      simp only [strLe]
      rcases Nat.lt_trichotomy x.toNat y.toNat with h | h | h
      · simp [h]
      · simp [h, Nat.lt_irrefl, ih ys]
      · simp [h, Nat.lt_asymm h]

theorem strLe_trans (a b c : Str) (hab : strLe a b) (hbc : strLe b c) :
    strLe a c := by
  induction a generalizing b c with
  | nil => simp [strLe]
  | cons x xs ih =>
    cases b with
    | nil => simp [strLe] at hab
    | cons y ys =>
      cases c with
      | nil => simp [strLe] at hbc
      | cons z zs =>
        simp only [strLe] at hab hbc ⊢
        rcases Nat.lt_trichotomy x.toNat y.toNat with h1 | h1 | h1
        · rcases Nat.lt_trichotomy y.toNat z.toNat with h2 | h2 | h2
          · simp [Nat.lt_trans h1 h2]
          · simp [h2 ▸ h1]
          · simp [h2, Nat.lt_asymm h2] at hbc
        · rcases Nat.lt_trichotomy y.toNat z.toNat with h2 | h2 | h2
          · simp [h1 ▸ h2]
          · rw [h1] at hab
            rw [h2] at hbc
            rw [h1.trans h2]
            simp only [Nat.lt_irrefl, if_false, if_neg] at hab hbc ⊢
            exact ih ys zs hab hbc
          · simp [h2, Nat.lt_asymm h2] at hbc
        · simp [h1, Nat.lt_asymm h1] at hab

/-- Session origin (`timer.rs`): which control surface started the timer. -/
inductive Origin
  | Human
  | Agent
deriving DecidableEq

/-- Session status (`timer.rs`). -/
inductive SessionStatus
  | Running
  | Completed
  | Stopped
deriving DecidableEq

/-- One timer run (`timer.rs`, `struct Session`). -/
structure Session where
  id : Str
  label : Str
  duration_secs : Nat
  started_at : Str
  ended_at : Option Str
  origin : Origin
  status : SessionStatus
deriving DecidableEq

/-- Broadcast events (`timer.rs`, `enum TimerEvent`). -/
inductive TimerEvent
  | Started (session : Session)
  | Tick (remaining_secs : Nat) (session : Session)
  | Completed (session : Session)
  | Stopped (session : Session)
deriving DecidableEq

/-- The session snapshot carried by an event. -/
def evSession : TimerEvent → Session
  | .Started s => s
  | .Tick _ s => s
  | .Completed s => s
  | .Stopped s => s

/-- Point-in-time view returned by `get_status` (`timer.rs`). -/
structure TimerStatus where
  session : Option Session
  remaining_secs : Nat
  is_running : Bool
deriving DecidableEq

/-- Errors of the timer engine (`timer.rs`, `enum TimerError`). -/
inductive TimerError
  | AlreadyRunning
  | NotRunning
  | InvalidLabel (msg : Str)
  | InvalidDuration
deriving DecidableEq

/-- Result of `broadcast::Sender::send` (tokio semantics): the number of
receivers on success, an error when no receiver exists. The dropped event
value is irrelevant to the engine, so it is not carried in the error. -/
def busSend (receivers : Nat) : Except Unit Nat :=
  if receivers = 0 then .error () else .ok receivers

/-- The engine's shared state (`timer.rs`, `struct TimerInner` behind the
single `Mutex`, together with the broadcast side effects of the operations):
`events` records every event passed to `event_tx.send` in order,
`send_results` the (discarded) results of those sends, `cancel_tx` the token
of the currently registered oneshot cancellation sender, `next_token` a
fresh-token supply, and `cancelled` the tokens whose oneshot has received
the cancel signal. -/
structure EngineState where
  session : Option Session
  remaining_secs : Nat
  cancel_tx : Option Nat
  next_token : Nat
  events : List TimerEvent
  send_results : List (Except Unit Nat)
  cancelled : List Nat

/-- The state produced by `TimerEngine::new`. -/
def EngineState.init : EngineState :=
  { session := none, remaining_secs := 0, cancel_tx := none, next_token := 0,
    events := [], send_results := [], cancelled := [] }

namespace TimerEngine

/-- Embedding of `TimerEngine::validate_label` (`timer.rs:136`): trim, then
reject the empty label, a byte length above 64 (Rust `String::len` counts
bytes), and any control character. -/
def validate_label (label : Str) : Except TimerError Str :=
  let trimmed := trimStr label
  if trimmed.isEmpty then
    .error (.InvalidLabel ("label cannot be empty".data))
  else if 64 < byteLen trimmed then
    .error (.InvalidLabel ("label must be 64 characters or fewer".data))
  else if trimmed.any rustIsControl then
    .error (.InvalidLabel ("label cannot contain control characters".data))
  else
    .ok trimmed

/-- Embedding of `TimerEngine::validate_duration` (`timer.rs:154`). -/
def validate_duration (minutes : Nat) : Except TimerError Nat :=
  if 1 ≤ minutes ∧ minutes ≤ 1440 then .ok (minutes * 60)
  else .error .InvalidDuration

/-- Embedding of `TimerEngine::start` (`timer.rs:161`). Nondeterministic
inputs of the real code are parameters: `now` (the RFC3339 clock reading),
`id` (the fresh UUID) and `receivers` (the broadcast subscriber count). -/
def start (duration_minutes : Nat) (label : Str) (origin : Origin)
    (now id : Str) (receivers : Nat) (st : EngineState) :
    Except TimerError Session × EngineState :=
  match validate_label label with
  | .error e => (.error e, st)
  | .ok label =>
    match validate_duration duration_minutes with
    | .error e => (.error e, st)
    | .ok duration_secs =>
      if st.session.isSome then (.error .AlreadyRunning, st)
      else
        let session : Session :=
          { id := id, label := label, duration_secs := duration_secs,
            started_at := now, ended_at := none, origin := origin,
            status := .Running }
        let st1 :=
          { st with session := some session,
                    remaining_secs := duration_secs,
                    cancel_tx := some st.next_token,
                    next_token := st.next_token + 1,
                    events := st.events ++ [.Started session],
                    send_results := st.send_results ++ [busSend receivers] }
        (.ok session, st1)

/-- Embedding of `TimerEngine::stop` (`timer.rs:249`). -/
def stop (now : Str) (receivers : Nat) (st : EngineState) :
    Except TimerError Session × EngineState :=
  match st.session with
  | none => (.error .NotRunning, st)
  | some session =>
    let session := { session with status := .Stopped, ended_at := some now }
    let cancelled :=
      match st.cancel_tx with
      | some t => st.cancelled ++ [t]
      | none => st.cancelled
    (.ok session,
     { st with session := none,
               cancel_tx := none,
               cancelled := cancelled,
               events := st.events ++ [.Stopped session],
               send_results := st.send_results ++ [busSend receivers],
               remaining_secs := 0 })

/-- Embedding of `TimerEngine::get_status` (`timer.rs:271`). -/
def get_status (st : EngineState) : TimerStatus :=
  { session := st.session, remaining_secs := st.remaining_secs,
    is_running := st.session.isSome }

/-- First critical section of one `tick_loop` iteration (`timer.rs:211`–218):
break if the counter is already zero, otherwise decrement it and snapshot
the decremented value and the session before the lock is dropped. Returns
`none` on break, else the local variables `(remaining, session)`. -/
def tickDecr (st : EngineState) : Option (Nat × Option Session) × EngineState :=
  if st.remaining_secs = 0 then (none, st)
  else
    let r := st.remaining_secs - 1
    (some (r, st.session), { st with remaining_secs := r })

/-- The completion block of `tick_loop` (`timer.rs:223`–232): a second,
separately acquired critical section. If a session is still present it is
marked `Completed` with `ended_at := now` and a `Completed` event is sent;
in every case the active session and the cancellation sender are cleared. -/
def tickComplete (now : Str) (receivers : Nat) (st : EngineState) :
    EngineState :=
  match st.session with
  | some s =>
    let s := { s with status := .Completed, ended_at := some now }
    { st with session := none, cancel_tx := none,
              events := st.events ++ [.Completed s],
              send_results := st.send_results ++ [busSend receivers] }
  | none => { st with session := none, cancel_tx := none }

/-- The code of one `tick_loop` iteration after the first lock is dropped
(`timer.rs:220`–240), acting on the local variables saved by `tickDecr`:
run the completion block when the counter reached zero, otherwise send a
`Tick` event. -/
def tickFinish (now : Str) (receivers : Nat) (remaining : Nat)
    (snap : Option Session) (st : EngineState) : EngineState :=
  match snap with
  | none => st
  | some session =>
    if remaining = 0 then tickComplete now receivers st
    else
      { st with events := st.events ++ [.Tick remaining session],
                send_results := st.send_results ++ [busSend receivers] }

/-- One whole `tick_loop` iteration with no interleaved operation: the
first critical section followed immediately by the post-lock code. A
no-op once the counter is zero (the loop has broken). -/
def tickIter (now : Str) (receivers : Nat) (st : EngineState) : EngineState :=
  match tickDecr st with
  | (none, st1) => st1
  | (some (r, snap), st1) => tickFinish now receivers r snap st1

/-- `n` consecutive uninterleaved `tick_loop` iterations. -/
def runTicks (now : Str) (receivers : Nat) : Nat → EngineState → EngineState
  | 0, st => st
  | n + 1, st => runTicks now receivers n (tickIter now receivers st)

end TimerEngine

/-- One row of the `sessions` table (`state.rs`): `origin` and `status` are
stored as the strings produced by Rust's `Debug` formatting. -/
structure Row where
  id : Str
  label : Str
  duration_secs : Nat
  started_at : Str
  ended_at : Option Str
  origin : Str
  status : Str
deriving DecidableEq

/-- The string written for an origin by `format!` with the `Debug` formatter
(`state.rs:58`). -/
def originDbg : Origin → Str
  | .Human => "Human".data
  | .Agent => "Agent".data

/-- The string written for a status by `format!` with the `Debug` formatter
(`state.rs:59`). -/
def statusDbg : SessionStatus → Str
  | .Running => "Running".data
  | .Completed => "Completed".data
  | .Stopped => "Stopped".data

/-- The row inserted for a session by `StateManager::save_session`. -/
def sessionToRow (s : Session) : Row :=
  { id := s.id, label := s.label, duration_secs := s.duration_secs,
    started_at := s.started_at, ended_at := s.ended_at,
    origin := originDbg s.origin, status := statusDbg s.status }

/-- Embedding of the origin parsing in `StateManager::get_history`
(`state.rs:113`): anything other than `"Agent"` falls back to `Human`. -/
def parseOrigin (o : Str) : Origin :=
  if o = "Agent".data then .Agent else .Human

/-- Embedding of the status parsing in `StateManager::get_history`
(`state.rs:117`): anything other than `"Completed"`/`"Stopped"` falls back
to `Running`. -/
def parseStatus (s : Str) : SessionStatus :=
  if s = "Completed".data then .Completed
  else if s = "Stopped".data then .Stopped
  else .Running

/-- The session reconstructed from a row by `StateManager::get_history`. -/
def rowToSession (r : Row) : Session :=
  { id := r.id, label := r.label, duration_secs := r.duration_secs,
    started_at := r.started_at, ended_at := r.ended_at,
    origin := parseOrigin r.origin, status := parseStatus r.status }

/-- The `CHECK` constraints of the `sessions` schema (`state.rs:32`–40):
label length 1–64 (SQLite `length` counts characters of TEXT), positive
duration, enumerated origin and status. -/
def rowOk (r : Row) : Bool :=
  1 ≤ r.label.length && r.label.length ≤ 64 && 0 < r.duration_secs &&
  (r.origin = "Human".data || r.origin = "Agent".data) &&
  (r.status = "Running".data || r.status = "Completed".data ||
    r.status = "Stopped".data)

/-- The `sessions` table in insertion order. -/
abbrev Store := List Row

namespace StateManager

/-- Embedding of `StateManager::save_session` (`state.rs:47`): an `INSERT`
that fails when a `CHECK` constraint or the `id` primary-key uniqueness is
violated, and otherwise appends the row. -/
def save_session (s : Session) (db : Store) : Option Store :=
  let r := sessionToRow s
  if rowOk r && db.all (fun q => q.id ≠ r.id) then some (db ++ [r])
  else none

/-- The `WHERE` clause built by `StateManager::get_history` (`state.rs:88`):
an inclusive lower and upper bound on `started_at`, each only when present. -/
def inBounds (start_date end_date : Option Str) (r : Row) : Bool :=
  (match start_date with
   | some d => strLe d r.started_at
   | none => true) &&
  (match end_date with
   | some d => strLe r.started_at d
   | none => true)

/-- The `ORDER BY started_at DESC` relation: `a` may precede `b` when
`b.started_at <= a.started_at` in the byte-wise string order. -/
def rowGe (a b : Row) : Prop := strLe b.started_at a.started_at

instance : DecidableRel rowGe := fun a b => by
  unfold rowGe
  infer_instance

instance : IsTotal Row rowGe :=
  ⟨fun a b => by
    have h := strLe_total b.started_at a.started_at
    rcases Bool.or_eq_true .. |>.mp h with h1 | h1
    · exact .inl h1
    · exact .inr h1⟩

instance : IsTrans Row rowGe :=
  ⟨fun a b c h1 h2 => strLe_trans c.started_at b.started_at a.started_at
    h2 h1⟩

/-- Embedding of `StateManager::get_history` (`state.rs:79`): select the
rows within the bounds, order them by `started_at` descending, and parse
each row back into a session. -/
def get_history (start_date end_date : Option Str) (db : Store) :
    List Session :=
  ((List.insertionSort rowGe (db.filter (inBounds start_date end_date))).map
    rowToSession)

/-- Embedding of `StateManager::cleanup_stale_running` (`state.rs:128`):
the `UPDATE ... WHERE status = 'Running'` hits every running row, setting
`status = 'Stopped'` and `ended_at` to the current time, and reports the
number of rows changed. -/
def cleanup_stale_running (now : Str) (db : Store) : Store × Nat :=
  (db.map (fun r =>
      if r.status = "Running".data then
        { r with status := "Stopped".data, ended_at := some now }
      else r),
   db.countP (fun r => r.status = "Running".data))

end StateManager

/-- Control state of one spawned `tick_loop` task: at the top of the loop
(`looping`), between the two critical sections of an iteration holding the
local variables `remaining` and the session snapshot (`midTick`), or
terminated (`done`). -/
inductive SchedPC
  | looping
  | midTick (remaining : Nat) (snap : Option Session)
  | done
deriving DecidableEq

/-- One spawned tick-scheduler task: the token of the cancellation oneshot
it holds the receiving end of, and its control state. -/
structure SchedTask where
  token : Nat
  pc : SchedPC
deriving DecidableEq

/-- The whole system: the shared engine state plus every spawned
tick-scheduler task. -/
structure SysState where
  eng : EngineState
  tasks : List SchedTask

/-- The system at engine construction time: no tasks. -/
def SysState.init : SysState := { eng := EngineState.init, tasks := [] }

/-- `TimerEngine::start` at system level: a successful start additionally
spawns a tick-scheduler task holding the fresh cancellation token. -/
def startSys (duration_minutes : Nat) (label : Str) (origin : Origin)
    (now id : Str) (receivers : Nat) (sys : SysState) :
    Except TimerError Session × SysState :=
  match TimerEngine.start duration_minutes label origin now id receivers
      sys.eng with
  | (.ok s, eng1) =>
    (.ok s, { eng := eng1,
              tasks := sys.tasks ++ [{ token := sys.eng.next_token,
                                       pc := .looping }] })
  | (.error e, eng1) => (.error e, { eng := eng1, tasks := sys.tasks })

/-- `TimerEngine::stop` at system level (tasks only react to the cancel
signal at their next wake-up, so the task list is unchanged). -/
def stopSys (now : Str) (receivers : Nat) (sys : SysState) :
    Except TimerError Session × SysState :=
  let (r, eng1) := TimerEngine.stop now receivers sys.eng
  (r, { eng := eng1, tasks := sys.tasks })

/-- Task `i` executes the first critical section of a `tick_loop`
iteration. A no-op unless the task exists and is at the top of its loop. -/
def tickDecrSys (i : Nat) (sys : SysState) : SysState :=
  match sys.tasks[i]? with
  | some t =>
    if t.pc = SchedPC.looping then
      match TimerEngine.tickDecr sys.eng with
      | (none, eng1) =>
        { eng := eng1, tasks := sys.tasks.set i { t with pc := .done } }
      | (some (r, snap), eng1) =>
        { eng := eng1,
          tasks := sys.tasks.set i { t with pc := .midTick r snap } }
    else sys
  | none => sys

/-- Control state of a task after the post-lock part of an iteration:
the completion block breaks the loop, every other path loops on. -/
def pcAfterFinish (remaining : Nat) (snap : Option Session) : SchedPC :=
  match snap with
  | none => .looping
  | some _ => if remaining = 0 then .done else .looping

/-- Task `i` executes the post-lock part of a `tick_loop` iteration on its
saved local variables. A no-op unless the task is between the two critical
sections. -/
def tickFinishSys (i : Nat) (now : Str) (receivers : Nat) (sys : SysState) :
    SysState :=
  match sys.tasks[i]? with
  | some t =>
    match t.pc with
    | .midTick r snap =>
      { eng := TimerEngine.tickFinish now receivers r snap sys.eng,
        tasks := sys.tasks.set i { t with pc := pcAfterFinish r snap } }
    | _ => sys
  | none => sys

/-- Task `i` observes its cancellation signal at the top of its loop and
terminates without publishing anything. -/
def cancelSys (i : Nat) (sys : SysState) : SysState :=
  match sys.tasks[i]? with
  | some t =>
    if t.pc = SchedPC.looping ∧ t.token ∈ sys.eng.cancelled then
      { eng := sys.eng, tasks := sys.tasks.set i { t with pc := .done } }
    else sys
  | none => sys

/-- One atomic step of the interleaved system: any caller may run `start`,
`stop` or `get_status` (each a single critical section), and any scheduler
task may run one of its atomic pieces. -/
inductive Step : SysState → SysState → Prop
  | start (dm : Nat) (lab : Str) (og : Origin) (now id : Str)
      (rc : Nat) (sys : SysState) :
      Step sys (startSys dm lab og now id rc sys).2
  | stop (now : Str) (rc : Nat) (sys : SysState) :
      Step sys (stopSys now rc sys).2
  | getStatus (sys : SysState) : Step sys sys
  | tickDecr (i : Nat) (sys : SysState) : Step sys (tickDecrSys i sys)
  | tickFinish (i : Nat) (now : Str) (rc : Nat) (sys : SysState) :
      Step sys (tickFinishSys i now rc sys)
  | cancel (i : Nat) (sys : SysState) : Step sys (cancelSys i sys)

/-- States reachable from engine construction by any interleaving. -/
inductive Reachable : SysState → Prop
  | init : Reachable SysState.init
  | step {a b : SysState} : Reachable a → Step a b → Reachable b

/-- Case analysis of `TimerEngine.start`: it either fails leaving the state
untouched, or the engine was idle and the fully characterized success state
is produced. -/
theorem TimerEngine.start_spec (dm : Nat) (lab : Str) (og : Origin)
    (now id : Str) (rc : Nat) (st : EngineState) :
    ((∃ e, TimerEngine.start dm lab og now id rc st = (.error e, st))) ∨
    (∃ tl, TimerEngine.validate_label lab = .ok tl ∧
      TimerEngine.validate_duration dm = .ok (dm * 60) ∧
      st.session = none ∧
      TimerEngine.start dm lab og now id rc st =
        (.ok { id := id, label := tl, duration_secs := dm * 60,
               started_at := now, ended_at := none, origin := og,
               status := .Running },
         { st with
             session := some { id := id, label := tl,
                               duration_secs := dm * 60, started_at := now,
                               ended_at := none, origin := og,
                               status := .Running },
             remaining_secs := dm * 60,
             cancel_tx := some st.next_token,
             next_token := st.next_token + 1,
             events := st.events ++
               [.Started { id := id, label := tl, duration_secs := dm * 60,
                           started_at := now, ended_at := none, origin := og,
                           status := .Running }],
             send_results := st.send_results ++ [busSend rc] })) := by
  rcases hL : TimerEngine.validate_label lab with e | tl
  · exact .inl ⟨e, by simp [TimerEngine.start, hL]⟩
  · rcases hD : TimerEngine.validate_duration dm with e | ds
    · exact .inl ⟨e, by simp [TimerEngine.start, hL, hD]⟩
    · have hds : ds = dm * 60 := by
        unfold TimerEngine.validate_duration at hD
        split at hD
        · exact (Except.ok.inj hD).symm
        · simp at hD
      subst hds
      cases hs : st.session with
      | some s =>
        exact .inl ⟨.AlreadyRunning,
          by simp [TimerEngine.start, hL, hD, hs]⟩
      | none =>
        exact .inr ⟨tl, rfl, rfl, rfl, by simp [TimerEngine.start, hL, hD, hs]⟩

/-- Case analysis of `TimerEngine.stop`: either the engine was idle and
nothing changes, or the fully characterized stop state is produced. -/
theorem TimerEngine.stop_spec (now : Str) (rc : Nat) (st : EngineState) :
    (st.session = none ∧
      TimerEngine.stop now rc st = (.error .NotRunning, st)) ∨
    (∃ s, st.session = some s ∧
      TimerEngine.stop now rc st =
        (.ok { s with status := .Stopped, ended_at := some now },
         { st with
             session := none,
             cancel_tx := none,
             cancelled := match st.cancel_tx with
               | some t => st.cancelled ++ [t]
               | none => st.cancelled,
             events := st.events ++
               [.Stopped { s with status := .Stopped,
                                  ended_at := some now }],
             send_results := st.send_results ++ [busSend rc],
             remaining_secs := 0 })) := by
  cases hs : st.session with
  | none => exact .inl ⟨rfl, by simp [TimerEngine.stop, hs]⟩
  | some s => exact .inr ⟨s, rfl, by simp [TimerEngine.stop, hs]⟩

/-- Well-formedness of one session record: `ended_at` is absent exactly
when the status is `Running`. -/
def SessionWF (s : Session) : Prop :=
  s.ended_at = none ↔ s.status = SessionStatus.Running

/-- The inductive invariant of the interleaved system: the live session is
always `Running` with no `ended_at`; every session snapshot ever published
on the bus is well-formed; and every snapshot saved inside a scheduler task
between its two critical sections is `Running` with no `ended_at`. -/
def Inv (sys : SysState) : Prop :=
  (∀ s, sys.eng.session = some s →
      s.status = SessionStatus.Running ∧ s.ended_at = none) ∧
  (∀ ev ∈ sys.eng.events, SessionWF (evSession ev)) ∧
  (∀ t ∈ sys.tasks, ∀ r s, t.pc = SchedPC.midTick r (some s) →
      s.status = SessionStatus.Running ∧ s.ended_at = none)

theorem inv_init : Inv SysState.init := by
  refine ⟨?_, ?_, ?_⟩ <;> simp [SysState.init, EngineState.init]

theorem inv_step {a b : SysState} (ha : Inv a) (hstep : Step a b) :
    Inv b := by
  obtain ⟨hA, hB, hT⟩ := ha
  cases hstep with
  | start dm lab og now id rc =>
    rcases TimerEngine.start_spec dm lab og now id rc a.eng with
      ⟨e, heq⟩ | ⟨tl, hL, hD, hnone, heq⟩
    · simp only [startSys, heq]
      exact ⟨hA, hB, hT⟩
    · simp only [startSys, heq]
      refine ⟨?_, ?_, ?_⟩
      · simp
      · intro ev hev
        rcases List.mem_append.mp hev with h | h
        · exact hB ev h
        · rw [List.mem_singleton.mp h]
          simp [SessionWF, evSession]
      · intro t ht r s hpc
        rcases List.mem_append.mp ht with h | h
        · exact hT t h r s hpc
        · rw [List.mem_singleton.mp h] at hpc
          simp at hpc
  | stop now rc =>
    rcases TimerEngine.stop_spec now rc a.eng with ⟨hnone, heq⟩ |
      ⟨s, hsome, heq⟩
    · simp only [stopSys, heq]
      exact ⟨hA, hB, hT⟩
    · simp only [stopSys, heq]
      refine ⟨by simp, ?_, fun t ht => hT t ht⟩
      intro ev hev
      rcases List.mem_append.mp hev with h | h
      · exact hB ev h
      · rw [List.mem_singleton.mp h]
        simp [SessionWF, evSession]
  | getStatus => exact ⟨hA, hB, hT⟩
  | tickDecr i =>
    cases hti : a.tasks[i]? with
    | none => simp only [tickDecrSys, hti]; exact ⟨hA, hB, hT⟩
    | some t =>
      by_cases hpc : t.pc = SchedPC.looping
      · simp only [tickDecrSys, hti, hpc, if_true, eq_self_iff_true]
        by_cases hr : a.eng.remaining_secs = 0
        · simp only [TimerEngine.tickDecr, hr, if_true, eq_self_iff_true]
          refine ⟨hA, hB, ?_⟩
          intro u hu r s hupc
          rcases List.mem_or_eq_of_mem_set hu with h | h
          · exact hT u h r s hupc
          · subst h; simp at hupc
        · simp only [TimerEngine.tickDecr, hr, if_false]
          refine ⟨hA, hB, ?_⟩
          intro u hu r s hupc
          rcases List.mem_or_eq_of_mem_set hu with h | h
          · exact hT u h r s hupc
          · subst h
            simp only [SchedPC.midTick.injEq] at hupc
            exact hA s hupc.2
      · simp only [tickDecrSys, hti, hpc, if_false]
        exact ⟨hA, hB, hT⟩
  | tickFinish i now rc =>
    cases hti : a.tasks[i]? with
    | none => simp only [tickFinishSys, hti]; exact ⟨hA, hB, hT⟩
    | some t =>
      cases hpc : t.pc with
      | looping =>
        simp only [tickFinishSys, hti, hpc]
        exact ⟨hA, hB, hT⟩
      | done =>
        simp only [tickFinishSys, hti, hpc]
        exact ⟨hA, hB, hT⟩
      | midTick r snap =>
        simp only [tickFinishSys, hti, hpc]
        have htaskInv := hT t (List.getElem?_mem hti)
        have htasks : ∀ u ∈ a.tasks.set i
            { t with pc := pcAfterFinish r snap },
            ∀ r2 s2, u.pc = SchedPC.midTick r2 (some s2) →
            s2.status = SessionStatus.Running ∧ s2.ended_at = none := by
          intro u hu r2 s2 hupc
          rcases List.mem_or_eq_of_mem_set hu with h | h
          · exact hT u h r2 s2 hupc
          · subst h
            simp only [pcAfterFinish] at hupc
            cases snap with
            | none => simp at hupc
            | some s3 =>
              by_cases hr0 : r = 0
              · rw [if_pos hr0] at hupc; simp at hupc
              · rw [if_neg hr0] at hupc; simp at hupc
        cases snap with
        | none =>
          simp only [TimerEngine.tickFinish]
          exact ⟨hA, hB, htasks⟩
        | some s =>
          have hsWF : s.status = SessionStatus.Running ∧ s.ended_at = none :=
            htaskInv r s hpc
          by_cases hr : r = 0
          · subst hr
            simp only [TimerEngine.tickFinish, if_true, eq_self_iff_true]
            cases hse : a.eng.session with
            | none =>
              simp only [TimerEngine.tickComplete, hse]
              exact ⟨by simp, hB, htasks⟩
            | some s0 =>
              simp only [TimerEngine.tickComplete, hse]
              refine ⟨by simp, ?_, htasks⟩
              intro ev hev
              rcases List.mem_append.mp hev with h | h
              · exact hB ev h
              · rw [List.mem_singleton.mp h]
                simp [SessionWF, evSession]
          · simp only [TimerEngine.tickFinish, if_neg hr]
            refine ⟨hA, ?_, htasks⟩
            intro ev hev
            rcases List.mem_append.mp hev with h | h
            · exact hB ev h
            · rw [List.mem_singleton.mp h]
              simp [SessionWF, evSession, hsWF.1, hsWF.2]
  | cancel i =>
    cases hti : a.tasks[i]? with
    | none => simp only [cancelSys, hti]; exact ⟨hA, hB, hT⟩
    | some t =>
      by_cases hc : t.pc = SchedPC.looping ∧ t.token ∈ a.eng.cancelled
      · simp only [cancelSys, hti, if_pos hc]
        refine ⟨hA, hB, ?_⟩
        intro u hu r s hupc
        rcases List.mem_or_eq_of_mem_set hu with h | h
        · exact hT u h r s hupc
        · subst h; simp at hupc
      · simp only [cancelSys, hti, if_neg hc]
        exact ⟨hA, hB, hT⟩

theorem inv_reachable {sys : SysState} (h : Reachable sys) : Inv sys := by
  induction h with
  | init => exact inv_init
  | step _ hstep ih => exact inv_step ih hstep

/-- Decomposition of membership in a list with one appended element. -/
theorem mem_append_one {α : Type} {x e : α} {l : List α} (h : x ∈ l ++ [e]) :
    x ∈ l ∨ x = e := by
  rcases List.mem_append.mp h with h1 | h1
  · exact .inl h1
  · exact .inr (List.mem_singleton.mp h1)

/-- The step-local facts that hold for a stuttering step. -/
theorem step_local_id (x : SysState) :
    (∀ s s', x.eng.session = some s → x.eng.session = some s' → s' = s) ∧
    (∀ s', TimerEvent.Completed s' ∈ x.eng.events →
       TimerEvent.Completed s' ∈ x.eng.events ∨
       ∃ s now, x.eng.session = some s ∧ s.status = SessionStatus.Running ∧
         s' = { s with status := SessionStatus.Completed,
                       ended_at := some now }) ∧
    (∀ s', TimerEvent.Stopped s' ∈ x.eng.events →
       TimerEvent.Stopped s' ∈ x.eng.events ∨
       ∃ s now, x.eng.session = some s ∧ s.status = SessionStatus.Running ∧
         s' = { s with status := SessionStatus.Stopped,
                       ended_at := some now }) :=
  ⟨fun _ s' h1 h2 => by rw [h1] at h2; exact (Option.some.inj h2).symm,
   fun _ h => .inl h, fun _ h => .inl h⟩

/-- How one atomic step can change the live session and the event log, from
any state satisfying the invariant: a session surviving a step is unchanged
(in particular `duration_secs` never changes), and every newly published
`Completed`/`Stopped` snapshot is the live `Running` session with only its
`status` and `ended_at` fields rewritten. -/
theorem step_local {a b : SysState} (ha : Inv a) (hstep : Step a b) :
    (∀ s s', a.eng.session = some s → b.eng.session = some s' → s' = s) ∧
    (∀ s', TimerEvent.Completed s' ∈ b.eng.events →
       TimerEvent.Completed s' ∈ a.eng.events ∨
       ∃ s now, a.eng.session = some s ∧ s.status = SessionStatus.Running ∧
         s' = { s with status := SessionStatus.Completed,
                       ended_at := some now }) ∧
    (∀ s', TimerEvent.Stopped s' ∈ b.eng.events →
       TimerEvent.Stopped s' ∈ a.eng.events ∨
       ∃ s now, a.eng.session = some s ∧ s.status = SessionStatus.Running ∧
         s' = { s with status := SessionStatus.Stopped,
                       ended_at := some now }) := by
  obtain ⟨hA, hB, hT⟩ := ha
  cases hstep with
  | start dm lab og now id rc =>
    rcases TimerEngine.start_spec dm lab og now id rc a.eng with
      ⟨e, heq⟩ | ⟨tl, hL, hD, hnone, heq⟩
    · simp only [startSys, heq]
      exact step_local_id a
    · simp only [startSys, heq]
      refine ⟨fun s s' h1 _ => absurd h1 (by rw [hnone]; simp), ?_, ?_⟩
      · intro s' h
        rcases mem_append_one h with h1 | h1
        · exact .inl h1
        · cases h1
      · intro s' h
        rcases mem_append_one h with h1 | h1
        · exact .inl h1
        · cases h1
  | stop now rc =>
    rcases TimerEngine.stop_spec now rc a.eng with ⟨hnone, heq⟩ |
      ⟨s, hsome, heq⟩
    · simp only [stopSys, heq]
      exact step_local_id a
    · simp only [stopSys, heq]
      refine ⟨fun s2 s' _ h2 => by simp at h2, ?_, ?_⟩
      · intro s' h
        rcases mem_append_one h with h1 | h1
        · exact .inl h1
        · cases h1
      · intro s' h
        rcases mem_append_one h with h1 | h1
        · exact .inl h1
        · injection h1 with h2
          exact .inr ⟨s, now, hsome, (hA s hsome).1, h2⟩
  | getStatus => exact step_local_id a
  | tickDecr i =>
    cases hti : a.tasks[i]? with
    | none => simp only [tickDecrSys, hti]; exact step_local_id a
    | some t =>
      by_cases hpc : t.pc = SchedPC.looping
      · simp only [tickDecrSys, hti, hpc, if_true, eq_self_iff_true]
        by_cases hr : a.eng.remaining_secs = 0
        · simp only [TimerEngine.tickDecr, hr, if_true, eq_self_iff_true]
          exact step_local_id a
        · simp only [TimerEngine.tickDecr, hr, if_false]
          exact ⟨fun s s' h1 h2 => by
              have h2a : a.eng.session = some s' := h2
              rw [h1] at h2a
              exact (Option.some.inj h2a).symm,
            fun _ h => .inl h, fun _ h => .inl h⟩
      · simp only [tickDecrSys, hti, hpc, if_false]
        exact step_local_id a
  | tickFinish i now rc =>
    cases hti : a.tasks[i]? with
    | none => simp only [tickFinishSys, hti]; exact step_local_id a
    | some t =>
      cases hpc : t.pc with
      | looping =>
        simp only [tickFinishSys, hti, hpc]
        exact step_local_id a
      | done =>
        simp only [tickFinishSys, hti, hpc]
        exact step_local_id a
      | midTick r snap =>
        simp only [tickFinishSys, hti, hpc]
        cases snap with
        | none =>
          simp only [TimerEngine.tickFinish]
          exact step_local_id a
        | some s =>
          by_cases hr : r = 0
          · subst hr
            simp only [TimerEngine.tickFinish, if_true, eq_self_iff_true]
            cases hse : a.eng.session with
            | none =>
              simp only [TimerEngine.tickComplete, hse]
              refine ⟨fun s2 s' h1 _ => by simp at h1,
                fun _ h => .inl h, fun _ h => .inl h⟩
            | some s0 =>
              simp only [TimerEngine.tickComplete, hse]
              refine ⟨fun s2 s' _ h2 => by simp at h2, ?_, ?_⟩
              · intro s' h
                rcases mem_append_one h with h1 | h1
                · exact .inl h1
                · injection h1 with h2
                  exact .inr ⟨s0, now, rfl, (hA s0 hse).1, h2⟩
              · intro s' h
                rcases mem_append_one h with h1 | h1
                · exact .inl h1
                · cases h1
          · simp only [TimerEngine.tickFinish, if_neg hr]
            refine ⟨fun s2 s' h1 h2 => by
                have h2a : a.eng.session = some s' := h2
                rw [h1] at h2a
                exact (Option.some.inj h2a).symm, ?_, ?_⟩
            · intro s' h
              rcases mem_append_one h with h1 | h1
              · exact .inl h1
              · cases h1
            · intro s' h
              rcases mem_append_one h with h1 | h1
              · exact .inl h1
              · cases h1
  | cancel i =>
    cases hti : a.tasks[i]? with
    | none => simp only [cancelSys, hti]; exact step_local_id a
    | some t =>
      by_cases hc : t.pc = SchedPC.looping ∧ t.token ∈ a.eng.cancelled
      · simp only [cancelSys, hti, if_pos hc]
        exact step_local_id a
      · simp only [cancelSys, hti, if_neg hc]
        exact step_local_id a

deriving instance DecidableEq for Except

/-- A string never has more characters than UTF-8 bytes. -/
theorem length_le_byteLen (s : Str) : s.length ≤ byteLen s := by
  induction s with
  | nil => simp [byteLen]
  | cons c cs ih =>
    have hc : 1 ≤ charUtf8Len c := by
      unfold charUtf8Len
      split
      · exact Nat.le_refl 1
      · split
        · omega
        · split <;> omega
    simp only [byteLen, List.map_cons, List.sum_cons, List.length_cons]
    have := ih
    simp only [byteLen] at this
    omega

/-- Counterexample to C2 as stated: with an empty label and a duration of
0 minutes, the duration is outside `1..=1440` but `start` fails with
`InvalidLabel`, not `InvalidDuration`, because the label is validated
first. -/
theorem C2_counterexample :
    ¬ (1 ≤ (0 : Nat) ∧ (0 : Nat) ≤ 1440) ∧
    (TimerEngine.start 0 [] Origin.Human [] [] 0 EngineState.init).1 =
      .error (.InvalidLabel ("label cannot be empty".data)) ∧
    (TimerEngine.start 0 [] Origin.Human [] [] 0 EngineState.init).1 ≠
      .error .InvalidDuration := by
  refine ⟨by decide, by decide, by decide⟩

/-- C2 (amended): a label that trims to the empty string, to more than 64
characters (equivalently, whose trimmed form exceeds 64 UTF-8 bytes — the
code checks bytes), or that keeps a control character makes `start` fail
with `InvalidLabel`; when the label passes validation, a duration outside
`1..=1440` makes `start` fail with `InvalidDuration`; in both failure cases
the engine state is returned untouched no matter what it was (the checks
precede any use of shared state); and a successful `start` uses the trimmed
label. -/
theorem C2_start_validation (dm : Nat) (label : Str) (og : Origin)
    (now id : Str) (rc : Nat) (st : EngineState) :
    ((trimStr label = [] ∨ 64 < (trimStr label).length ∨
        64 < byteLen (trimStr label) ∨
        (trimStr label).any rustIsControl = true) →
      ∃ msg, TimerEngine.start dm label og now id rc st =
        (.error (.InvalidLabel msg), st)) ∧
    (trimStr label ≠ [] → byteLen (trimStr label) ≤ 64 →
      (trimStr label).any rustIsControl = false →
      ¬ (1 ≤ dm ∧ dm ≤ 1440) →
      TimerEngine.start dm label og now id rc st =
        (.error .InvalidDuration, st)) ∧
    (∀ s st1, TimerEngine.start dm label og now id rc st = (.ok s, st1) →
      s.label = trimStr label) := by
  refine ⟨?_, ?_, ?_⟩
  · intro hbad
    by_cases h1 : (trimStr label).isEmpty
    · exact ⟨"label cannot be empty".data,
        by simp [TimerEngine.start, TimerEngine.validate_label, h1]⟩
    · by_cases h2 : 64 < byteLen (trimStr label)
      · exact ⟨"label must be 64 characters or fewer".data,
          by simp [TimerEngine.start, TimerEngine.validate_label, h1, h2]⟩
      · by_cases h3 : (trimStr label).any rustIsControl
        · exact ⟨"label cannot contain control characters".data,
            by simp [TimerEngine.start, TimerEngine.validate_label,
              h1, h2, h3]⟩
        · exfalso
          rcases hbad with h | h | h | h
          · exact h1 (by simp [h, List.isEmpty])
          · exact h2 (Nat.lt_of_lt_of_le h (length_le_byteLen _))
          · exact h2 h
          · exact absurd h (by simp [h3])
  · intro h1 h2 h3 hdm
    have hic : ¬ (trimStr label).isEmpty := by
      simpa [List.isEmpty_iff] using h1
    simp [TimerEngine.start, TimerEngine.validate_label, hic,
      Nat.not_lt.mpr h2, h3, TimerEngine.validate_duration, hdm]
  · intro s st1 h
    rcases TimerEngine.start_spec dm label og now id rc st with
      ⟨e, heq⟩ | ⟨tl, hL, hD, hnone, heq⟩
    · rw [heq] at h
      injection h with h1 h2
      cases h1
    · rw [heq] at h
      injection h with h1 h2
      have hs := Except.ok.inj h1
      have htl : tl = trimStr label := by
        unfold TimerEngine.validate_label at hL
        by_cases e1 : (trimStr label).isEmpty
        · simp [e1] at hL
        · by_cases e2 : 64 < byteLen (trimStr label)
          · simp [e1, e2] at hL
          · by_cases e3 : (trimStr label).any rustIsControl
            · simp [e1, e2, e3] at hL
            · simp [e1, e2, e3] at hL
              exact hL.symm
      subst hs
      simpa using htl

/-- Concrete instantiation of `C2_start_validation`: a whitespace-only
label fails with `InvalidLabel`; a valid label with duration 0 fails with
`InvalidDuration`; a successful start returns the trimmed label. -/
theorem C2_start_validation_witness :
    (∃ msg, TimerEngine.start 25 ("  ".data) Origin.Human [] [] 1
        EngineState.init = (.error (.InvalidLabel msg), EngineState.init)) ∧
    TimerEngine.start 0 ("x".data) Origin.Human [] [] 1 EngineState.init =
      (.error .InvalidDuration, EngineState.init) ∧
    ("Work".data : Str) = trimStr ("  Work  ".data) := by
  refine ⟨?_, ?_, ?_⟩
  · exact (C2_start_validation 25 ("  ".data) Origin.Human [] [] 1
      EngineState.init).1 (by decide)
  · exact (C2_start_validation 0 ("x".data) Origin.Human [] [] 1
      EngineState.init).2.1 (by decide) (by decide) (by decide) (by decide)
  · exact (C2_start_validation 25 ("  Work  ".data) Origin.Human [] [] 1
      EngineState.init).2.2 _ _ rfl

/-- The session record constructed by a successful `start`
(`timer.rs:175`). -/
def startedSession (id tl : Str) (ds : Nat) (now : Str) (og : Origin) :
    Session :=
  { id := id, label := tl, duration_secs := ds, started_at := now,
    ended_at := none, origin := og, status := .Running }

/-- A state with a session started, for concrete instantiations. -/
def busyEngine : EngineState :=
  (TimerEngine.start 25 ("A".data) Origin.Human ("t0".data) ("a".data) 1
    EngineState.init).2

/-- C3: with a valid label and duration, `start` on a busy engine fails
with `AlreadyRunning` and returns the state untouched; on an idle engine it
constructs the session with `status = Running`, `started_at = now`,
`duration_secs = minutes * 60` and no `ended_at`, registers it as the
active session together with a fresh cancellation token (the supply is
advanced), sets the countdown to the full duration (nothing of it has run),
appends exactly one `Started` event carrying the snapshot, returns the
created session, and (at system level) spawns exactly one scheduler task
paired with that fresh token. -/
theorem C3_start_transition (dm : Nat) (label tl : Str) (og : Origin)
    (now id : Str) (rc : Nat) (st : EngineState)
    (hL : TimerEngine.validate_label label = .ok tl)
    (hdm : 1 ≤ dm ∧ dm ≤ 1440) :
    (st.session.isSome = true →
      TimerEngine.start dm label og now id rc st =
        (.error .AlreadyRunning, st)) ∧
    (st.session = none →
      TimerEngine.start dm label og now id rc st =
        (.ok (startedSession id tl (dm * 60) now og),
         { st with
             session := some (startedSession id tl (dm * 60) now og),
             remaining_secs := dm * 60,
             cancel_tx := some st.next_token,
             next_token := st.next_token + 1,
             events := st.events ++
               [.Started (startedSession id tl (dm * 60) now og)],
             send_results := st.send_results ++ [busSend rc] })) ∧
    (∀ tasks, st.session = none →
      (startSys dm label og now id rc ⟨st, tasks⟩).2.tasks =
        tasks ++ [{ token := st.next_token, pc := .looping }]) := by
  refine ⟨?_, ?_, ?_⟩
  · intro h
    simp [TimerEngine.start, hL, TimerEngine.validate_duration, hdm, h]
  · intro h
    simp [TimerEngine.start, hL, TimerEngine.validate_duration, hdm, h,
      startedSession]
  · intro tasks h
    simp [startSys, TimerEngine.start, hL, TimerEngine.validate_duration,
      hdm, h]

/-- Concrete instantiation of `C3_start_transition`: a second start fails
with `AlreadyRunning`, and a start from idle returns the freshly built
running session. -/
theorem C3_start_transition_witness :
    TimerEngine.start 10 ("Work".data) Origin.Agent ("t1".data) ("b".data) 1
      busyEngine = (.error .AlreadyRunning, busyEngine) ∧
    (TimerEngine.start 10 ("Work".data) Origin.Agent ("t1".data) ("b".data)
        1 EngineState.init).1 =
      .ok (startedSession ("b".data) ("Work".data) 600 ("t1".data)
        Origin.Agent) := by
  constructor
  · exact (C3_start_transition 10 ("Work".data) ("Work".data) Origin.Agent
      ("t1".data) ("b".data) 1 busyEngine (by decide) (by decide)).1
      (by decide)
  · exact congrArg Prod.fst
      ((C3_start_transition 10 ("Work".data) ("Work".data) Origin.Agent
        ("t1".data) ("b".data) 1 EngineState.init (by decide)
        (by decide)).2.1 rfl)

/-- C4: `stop` fails exactly when no session is active, and then changes
nothing; on an active session (whose cancellation sender is registered) it
removes the session, marks the returned snapshot `Stopped` with
`ended_at = now`, sends the cancel signal on the registered token, appends
exactly one `Stopped` event, zeroes the countdown, and returns the
snapshot. -/
theorem C4_stop_semantics (now : Str) (rc : Nat) (st : EngineState) :
    (st.session = none →
      TimerEngine.stop now rc st = (.error .NotRunning, st)) ∧
    ((TimerEngine.stop now rc st).1 = .error .NotRunning →
      st.session = none) ∧
    (∀ s tk, st.session = some s → st.cancel_tx = some tk →
      TimerEngine.stop now rc st =
        (.ok { s with status := .Stopped, ended_at := some now },
         { st with
             session := none,
             cancel_tx := none,
             cancelled := st.cancelled ++ [tk],
             events := st.events ++
               [.Stopped { s with status := .Stopped,
                                  ended_at := some now }],
             send_results := st.send_results ++ [busSend rc],
             remaining_secs := 0 })) := by
  refine ⟨?_, ?_, ?_⟩
  · intro h
    simp [TimerEngine.stop, h]
  · intro h
    cases hs : st.session with
    | none => rfl
    | some s => simp [TimerEngine.stop, hs] at h
  · intro s tk hs htk
    simp [TimerEngine.stop, hs, htk]

/-- Concrete instantiation of `C4_stop_semantics`: `stop` on the fresh
engine fails with `NotRunning` without mutating it, and `stop` on a busy
engine returns the stopped snapshot. -/
theorem C4_stop_semantics_witness :
    TimerEngine.stop ("t9".data) 1 EngineState.init =
      (.error .NotRunning, EngineState.init) ∧
    (TimerEngine.stop ("t9".data) 1 busyEngine).1 =
      .ok { startedSession ("a".data) ("A".data) 1500 ("t0".data)
              Origin.Human with
            status := .Stopped, ended_at := some ("t9".data) } := by
  constructor
  · exact (C4_stop_semantics ("t9".data) 1 EngineState.init).1 rfl
  · exact congrArg Prod.fst
      ((C4_stop_semantics ("t9".data) 1 busyEngine).2.2
        (startedSession ("a".data) ("A".data) 1500 ("t0".data) Origin.Human)
        0 (by decide) (by decide))

/-- Everything of the engine state except the recorded send results. -/
def coreView (st : EngineState) :
    Option Session × Nat × Option Nat × Nat × List TimerEvent × List Nat :=
  (st.session, st.remaining_secs, st.cancel_tx, st.next_token, st.events,
   st.cancelled)

/-- C10: the engine binds every `event_tx.send` result to `_`: the returned
value and the whole state apart from the recorded send results are
identical whatever the subscriber count — in particular when it is zero and
the send fails. The last two conjuncts run `start` with no subscriber at
all: it still succeeds while the recorded send result is the error. -/
theorem C10_broadcast_independence (dm : Nat) (label : Str) (og : Origin)
    (now id : Str) (st : EngineState) (rc1 rc2 : Nat) :
    ((TimerEngine.start dm label og now id rc1 st).1 =
       (TimerEngine.start dm label og now id rc2 st).1 ∧
     coreView (TimerEngine.start dm label og now id rc1 st).2 =
       coreView (TimerEngine.start dm label og now id rc2 st).2) ∧
    ((TimerEngine.stop now rc1 st).1 = (TimerEngine.stop now rc2 st).1 ∧
     coreView (TimerEngine.stop now rc1 st).2 =
       coreView (TimerEngine.stop now rc2 st).2) ∧
    (coreView (TimerEngine.tickComplete now rc1 st) =
       coreView (TimerEngine.tickComplete now rc2 st)) ∧
    (∀ r snap, coreView (TimerEngine.tickFinish now rc1 r snap st) =
       coreView (TimerEngine.tickFinish now rc2 r snap st)) ∧
    (TimerEngine.start 25 ("Work".data) Origin.Human ("t0".data) ("w".data)
        0 EngineState.init).1 =
      .ok (startedSession ("w".data) ("Work".data) 1500 ("t0".data)
        Origin.Human) ∧
    (TimerEngine.start 25 ("Work".data) Origin.Human ("t0".data) ("w".data)
        0 EngineState.init).2.send_results = [.error ()] := by
  have hcomplete : coreView (TimerEngine.tickComplete now rc1 st) =
      coreView (TimerEngine.tickComplete now rc2 st) := by
    cases hs : st.session with
    | none => simp [TimerEngine.tickComplete, hs]
    | some s => simp [TimerEngine.tickComplete, hs, coreView]
  refine ⟨?_, ?_, hcomplete, ?_, by decide, by decide⟩
  · rcases hL : TimerEngine.validate_label label with e | tl
    · simp [TimerEngine.start, hL]
    · rcases hD : TimerEngine.validate_duration dm with e | ds
      · simp [TimerEngine.start, hL, hD]
      · cases hs : st.session with
        | some s => simp [TimerEngine.start, hL, hD, hs]
        | none => simp [TimerEngine.start, hL, hD, hs, coreView]
  · cases hs : st.session with
    | none => simp [TimerEngine.stop, hs]
    | some s => simp [TimerEngine.stop, hs, coreView]
  · intro r snap
    cases snap with
    | none => simp [TimerEngine.tickFinish]
    | some s =>
      by_cases hr : r = 0
      · subst hr
        simpa [TimerEngine.tickFinish] using hcomplete
      · simp [TimerEngine.tickFinish, hr, coreView]

/-- Recognizer for `Completed` events. -/
def isCompletedEv : TimerEvent → Bool
  | .Completed _ => true
  | _ => false

/-- Number of `Completed` events in a log. -/
def countCompleted (evs : List TimerEvent) : Nat := evs.countP isCompletedEv

/-- A session with `n ≥ 1` seconds left and no interference runs to natural
completion in exactly `n` uninterleaved tick iterations: afterwards no
session is active, the counter is zero, and exactly one `Completed` event
has been added to the log. -/
theorem runTicks_completes (tnow : Str) (rc : Nat) (s : Session) :
    ∀ n st, st.session = some s → st.remaining_secs = n → 1 ≤ n →
      (TimerEngine.runTicks tnow rc n st).session = none ∧
      (TimerEngine.runTicks tnow rc n st).remaining_secs = 0 ∧
      countCompleted (TimerEngine.runTicks tnow rc n st).events =
        countCompleted st.events + 1 := by
  intro n
  induction n with
  | zero => intro st _ _ hn; omega
  | succ n ih =>
    intro st hs hr _
    rcases Nat.eq_zero_or_pos n with h0 | hpos
    · subst h0
      refine ⟨?_, ?_, ?_⟩ <;>
        simp [TimerEngine.runTicks, TimerEngine.tickIter,
          TimerEngine.tickDecr, hr, hs, TimerEngine.tickFinish,
          TimerEngine.tickComplete, countCompleted, isCompletedEv,
          List.countP_append]
    · have hne : ¬ n = 0 := Nat.pos_iff_ne_zero.mp hpos
      have hstep : TimerEngine.tickIter tnow rc st =
          { st with remaining_secs := n,
                    events := st.events ++ [TimerEvent.Tick n s],
                    send_results := st.send_results ++ [busSend rc] } := by
        simp [TimerEngine.tickIter, TimerEngine.tickDecr, hr, hs,
          TimerEngine.tickFinish, hne]
      simp only [TimerEngine.runTicks, hstep]
      have hrec := ih
        ({ st with remaining_secs := n,
                   events := st.events ++ [TimerEvent.Tick n s],
                   send_results := st.send_results ++ [busSend rc] })
        (by simp [hs]) (by simp) hpos
      refine ⟨hrec.1, hrec.2.1, ?_⟩
      rw [hrec.2.2]
      simp [countCompleted, List.countP_append, isCompletedEv]

/-- C6: a 1-minute session that is started and never stopped reaches, after
60 uninterleaved one-second tick iterations, a state whose event log holds
exactly one `Completed` event (no duplicate is ever sent) and on which
`get_status` reports `is_running = false`. -/
theorem C6_natural_completion (label : Str) (og : Origin)
    (now id tnow : Str) (rc : Nat) (s : Session) (st1 : EngineState)
    (h : TimerEngine.start 1 label og now id rc EngineState.init =
      (.ok s, st1)) :
    countCompleted (TimerEngine.runTicks tnow rc 60 st1).events = 1 ∧
    (TimerEngine.get_status
      (TimerEngine.runTicks tnow rc 60 st1)).is_running = false := by
  rcases TimerEngine.start_spec 1 label og now id rc EngineState.init with
    ⟨e, heq⟩ | ⟨tl, hL, hD, hnone, heq⟩
  · rw [heq] at h
    injection h with h1 h2
    cases h1
  · rw [heq] at h
    injection h with h1 h2
    have hss := Except.ok.inj h1
    have hs1 : st1.session = some s := by
      rw [← h2]
      simp [hss]
    have hr1 : st1.remaining_secs = 60 := by rw [← h2]
    have hc1 : countCompleted st1.events = 0 := by
      rw [← h2]
      simp [EngineState.init, countCompleted, isCompletedEv]
    have hrun := runTicks_completes tnow rc s 60 st1 hs1 hr1 (by omega)
    exact ⟨by rw [hrun.2.2, hc1],
      by simp [TimerEngine.get_status, hrun.1]⟩

/-- Concrete instantiation of `C6_natural_completion` for an actual
1-minute session. -/
theorem C6_natural_completion_witness :
    countCompleted (TimerEngine.runTicks ("tn".data) 1 60
      (TimerEngine.start 1 ("focus".data) Origin.Human ("t0".data)
        ("f".data) 1 EngineState.init).2).events = 1 ∧
    (TimerEngine.get_status (TimerEngine.runTicks ("tn".data) 1 60
      (TimerEngine.start 1 ("focus".data) Origin.Human ("t0".data)
        ("f".data) 1 EngineState.init).2)).is_running = false :=
  C6_natural_completion ("focus".data) Origin.Human ("t0".data) ("f".data)
    ("tn".data) 1 _ _ rfl

/-- The 1-minute session whose completion the stale scheduler is about to
run in the race trace below. -/
def raceSession1 : Session :=
  startedSession ("a".data) ("first".data) 60 ("t0".data) Origin.Human

/-- The second session, started inside the window the claim says cannot be
observed. -/
def raceSession2 : Session :=
  startedSession ("b".data) ("second".data) 120 ("t6".data) Origin.Agent

/-- Engine state after starting the 1-minute session and running 59 full
tick iterations: one second left. -/
def raceAfter59 : EngineState :=
  TimerEngine.runTicks ("t1".data) 1 59
    (TimerEngine.start 1 ("first".data) Origin.Human ("t0".data) ("a".data)
      1 EngineState.init).2

/-- The 60th iteration's first critical section: the decrement that reaches
zero, returning the scheduler's local variables. -/
def raceDecr : Option (Nat × Option Session) × EngineState :=
  TimerEngine.tickDecr raceAfter59

/-- An interleaved `stop` between the decrement and the completion block. -/
def raceStop : Except TimerError Session × EngineState :=
  TimerEngine.stop ("t5".data) 1 raceDecr.2

/-- An interleaved `start` of a fresh 2-minute session, still inside the
window. -/
def raceRestart : Except TimerError Session × EngineState :=
  TimerEngine.start 2 ("second".data) Origin.Agent ("t6".data) ("b".data) 1
    raceStop.2

/-- The stale scheduler finally runs its completion block on its saved
local variables. -/
def raceFinal : EngineState :=
  TimerEngine.tickFinish ("t9".data) 1 0 (some raceSession1) raceRestart.2

set_option maxRecDepth 100000 in
/-- C1 is violated by the code: `tick_loop` drops the engine lock between
the decrement that reaches zero (`timer.rs:218`) and the completion block,
which re-acquires it (`timer.rs:223`). In the trace below the decrement of
a 1-minute session reaches zero with the session still registered; an
interleaved `stop` then succeeds (it observes and acts on the state inside
the window the claim declares unobservable), an interleaved `start` of a
second session succeeds too, and the stale scheduler's completion block
then marks the *second* session `Completed`, clears it and drops its
cancellation sender — the very scheduler race the specification says cannot
happen. -/
theorem C1_completion_race :
    raceDecr.1 = some (0, some raceSession1) ∧
    raceStop.1 =
      .ok { raceSession1 with
              status := SessionStatus.Stopped,
              ended_at := some ("t5".data) } ∧
    raceRestart.1 = .ok raceSession2 ∧
    raceFinal.session = none ∧
    raceFinal.cancel_tx = none ∧
    raceFinal.events.getLast? =
      some (.Completed { raceSession2 with
                           status := SessionStatus.Completed,
                           ended_at := some ("t9".data) }) :=
  ⟨by decide, by decide, by decide, by decide, by decide, by decide⟩

/-- C5: in every reachable state of the interleaved system the live session
(there is at most one: the engine holds an `Option Session`, mirroring
`TimerInner`) is `Running` with `ended_at` absent; every published snapshot
satisfies `ended_at = none` exactly when its status is `Running`; and along
every step a surviving live session is unchanged (hence `duration_secs`
never changes) while every newly published `Completed`/`Stopped` snapshot
is the previously live `Running` session with only `status` and `ended_at`
rewritten — so statuses only ever move from `Running` to `Completed` or
`Stopped`. -/
theorem C5_reachable_invariants (sys : SysState) (h : Reachable sys) :
    ((∀ s, sys.eng.session = some s →
        s.status = SessionStatus.Running ∧ s.ended_at = none) ∧
     (∀ ev ∈ sys.eng.events,
        ((evSession ev).ended_at = none ↔
          (evSession ev).status = SessionStatus.Running))) ∧
    (∀ sys', Step sys sys' →
      (∀ s s', sys.eng.session = some s → sys'.eng.session = some s' →
        s' = s) ∧
      (∀ s', TimerEvent.Completed s' ∈ sys'.eng.events →
        TimerEvent.Completed s' ∈ sys.eng.events ∨
        ∃ s now, sys.eng.session = some s ∧
          s.status = SessionStatus.Running ∧
          s' = { s with status := SessionStatus.Completed,
                        ended_at := some now }) ∧
      (∀ s', TimerEvent.Stopped s' ∈ sys'.eng.events →
        TimerEvent.Stopped s' ∈ sys.eng.events ∨
        ∃ s now, sys.eng.session = some s ∧
          s.status = SessionStatus.Running ∧
          s' = { s with status := SessionStatus.Stopped,
                        ended_at := some now })) := by
  have hi := inv_reachable h
  exact ⟨⟨hi.1, hi.2.1⟩, fun sys' hstep => step_local hi hstep⟩

/-- The interleaved system right after one `start`. -/
def demoSys : SysState :=
  (startSys 25 ("Work".data) Origin.Human ("t0".data) ("w".data) 1
    SysState.init).2

/-- Concrete instantiation of `C5_reachable_invariants` at the reachable
state with one freshly started session. -/
theorem C5_reachable_invariants_witness :
    (startedSession ("w".data) ("Work".data) 1500 ("t0".data)
      Origin.Human).status = SessionStatus.Running ∧
    (startedSession ("w".data) ("Work".data) 1500 ("t0".data)
      Origin.Human).ended_at = none := by
  have hreach : Reachable demoSys :=
    Reachable.step Reachable.init
      (Step.start 25 ("Work".data) Origin.Human ("t0".data) ("w".data) 1
        SysState.init)
  exact (C5_reachable_invariants demoSys hreach).1.1 _ (by decide)

/-- C7: `get_history` returns exactly the stored rows within the bounds
(as parsed sessions), ordered by `started_at` descending; a present
`start_date` keeps only sessions with `started_at >= start_date`, a present
`end_date` only those with `started_at <= end_date` (both inclusive), and
with both bounds absent the result is a permutation of the whole store. -/
theorem C7_history_query (sd ed : Option Str) (db : Store) :
    List.Pairwise
      (fun a b : Session => strLe b.started_at a.started_at = true)
      (StateManager.get_history sd ed db) ∧
    (StateManager.get_history sd ed db).Perm
      ((db.filter (StateManager.inBounds sd ed)).map rowToSession) ∧
    (∀ d, sd = some d → ∀ s ∈ StateManager.get_history sd ed db,
      strLe d s.started_at = true) ∧
    (∀ d, ed = some d → ∀ s ∈ StateManager.get_history sd ed db,
      strLe s.started_at d = true) ∧
    (∀ r ∈ db, StateManager.inBounds sd ed r = true →
      rowToSession r ∈ StateManager.get_history sd ed db) ∧
    (StateManager.get_history none none db).Perm (db.map rowToSession) := by
  have hsorted : List.Sorted StateManager.rowGe
      (List.insertionSort StateManager.rowGe
        (db.filter (StateManager.inBounds sd ed))) :=
    List.sorted_insertionSort StateManager.rowGe
      (db.filter (StateManager.inBounds sd ed))
  have hperm := List.perm_insertionSort StateManager.rowGe
    (db.filter (StateManager.inBounds sd ed))
  refine ⟨?_, ?_, ?_, ?_, ?_, ?_⟩
  · exact List.pairwise_map.mpr hsorted
  · exact List.Perm.map rowToSession hperm
  · intro d hd s hs
    obtain ⟨r, hr, hfr⟩ := List.mem_map.mp hs
    have hb := (List.mem_filter.mp (hperm.mem_iff.mp hr)).2
    subst hd
    unfold StateManager.inBounds at hb
    simp only [Bool.and_eq_true] at hb
    rw [← hfr]
    exact hb.1
  · intro d hd s hs
    obtain ⟨r, hr, hfr⟩ := List.mem_map.mp hs
    have hb := (List.mem_filter.mp (hperm.mem_iff.mp hr)).2
    subst hd
    unfold StateManager.inBounds at hb
    simp only [Bool.and_eq_true] at hb
    rw [← hfr]
    exact hb.2
  · intro r hr hb
    exact List.mem_map_of_mem rowToSession
      (hperm.mem_iff.mpr (List.mem_filter.mpr ⟨hr, hb⟩))
  · have hf : db.filter (StateManager.inBounds none none) = db :=
      List.filter_eq_self.mpr (fun a _ => rfl)
    unfold StateManager.get_history
    rw [hf]
    exact List.Perm.map rowToSession
      (List.perm_insertionSort StateManager.rowGe db)

/-- The earlier of the two example rows of the specification. -/
def rowEarly : Row :=
  { id := "s1".data, label := "Early".data, duration_secs := 1500,
    started_at := "2024-01-01T10:00:00Z".data,
    ended_at := some ("2024-01-01T10:25:00Z".data),
    origin := "Human".data, status := "Completed".data }

/-- The later of the two example rows of the specification. -/
def rowLate : Row :=
  { id := "s2".data, label := "Late".data, duration_secs := 1500,
    started_at := "2024-01-02T10:00:00Z".data,
    ended_at := some ("2024-01-02T10:25:00Z".data),
    origin := "Human".data, status := "Completed".data }

/-- Concrete instantiation of `C7_history_query` on the specification's own
example: filtering two sessions with `start_date = 2024-01-02T00:00:00Z`
returns only the later one. -/
theorem C7_history_query_witness :
    StateManager.get_history (some ("2024-01-02T00:00:00Z".data)) none
      [rowEarly, rowLate] = [rowToSession rowLate] ∧
    rowToSession rowLate ∈ StateManager.get_history
      (some ("2024-01-02T00:00:00Z".data)) none [rowEarly, rowLate] ∧
    strLe ("2024-01-02T00:00:00Z".data)
      (rowToSession rowLate).started_at = true := by
  refine ⟨by decide, ?_, ?_⟩
  · exact (C7_history_query (some ("2024-01-02T00:00:00Z".data)) none
      [rowEarly, rowLate]).2.2.2.2.1 rowLate (by decide) (by decide)
  · exact (C7_history_query (some ("2024-01-02T00:00:00Z".data)) none
      [rowEarly, rowLate]).2.2.1 ("2024-01-02T00:00:00Z".data) rfl
      (rowToSession rowLate) (by decide)

/-- C8: the recovery `UPDATE` maps each `Running` row, in place, to the
same row with `status = Stopped` and `ended_at = now`, leaves every other
row exactly as it was, reports the number of `Running` rows, and leaves no
`Running` row behind. -/
theorem C8_recover (now : Str) (db : Store) :
    (∀ (i : Nat) (r : Row), db[i]? = some r →
      (r.status = "Running".data →
        (StateManager.cleanup_stale_running now db).1[i]? =
          some { r with status := "Stopped".data, ended_at := some now }) ∧
      (r.status ≠ "Running".data →
        (StateManager.cleanup_stale_running now db).1[i]? = some r)) ∧
    (∀ q ∈ (StateManager.cleanup_stale_running now db).1,
      q.status ≠ "Running".data) ∧
    (StateManager.cleanup_stale_running now db).2 =
      db.countP (fun r => r.status = "Running".data) := by
  refine ⟨?_, ?_, rfl⟩
  · intro i r hi
    constructor
    · intro hrun
      simp [StateManager.cleanup_stale_running, List.getElem?_map, hi, hrun]
    · intro hother
      simp [StateManager.cleanup_stale_running, List.getElem?_map, hi,
        hother]
  · intro q hq
    simp only [StateManager.cleanup_stale_running] at hq
    obtain ⟨r, hr, hfr⟩ := List.mem_map.mp hq
    by_cases hrun : r.status = "Running".data
    · rw [← hfr]
      simp only [hrun, if_true, eq_self_iff_true]
      decide
    · rw [← hfr]
      simp only [if_neg hrun]
      exact hrun

/-- A stale `Running` row for the recovery example. -/
def rowRunning : Row :=
  { id := "r1".data, label := "Stale".data, duration_secs := 1500,
    started_at := "2024-01-01T12:00:00Z".data, ended_at := none,
    origin := "Human".data, status := "Running".data }

/-- Concrete instantiation of `C8_recover` on a store with one `Running`
and one `Completed` row: only the `Running` row changes and the reported
count is 1. -/
theorem C8_recover_witness :
    (StateManager.cleanup_stale_running ("tr".data)
        [rowRunning, rowLate]).1[0]? =
      some { rowRunning with
               status := "Stopped".data,
               ended_at := some ("tr".data) } ∧
    (StateManager.cleanup_stale_running ("tr".data)
        [rowRunning, rowLate]).1[1]? = some rowLate ∧
    (StateManager.cleanup_stale_running ("tr".data)
        [rowRunning, rowLate]).2 = 1 := by
  have h := C8_recover ("tr".data) [rowRunning, rowLate]
  refine ⟨?_, ?_, ?_⟩
  · exact (h.1 0 rowRunning (by decide)).1 (by decide)
  · exact (h.1 1 rowLate (by decide)).2 (by decide)
  · rw [h.2.2]
    decide

/-- C9: a session accepted by `save_session` is found again by an
unfiltered `get_history` with identical `id`, `label`, `duration_secs`,
`origin` and `status` (the enumerated fields survive the round trip through
their stored string forms). -/
theorem C9_save_roundtrip (s : Session) (db db2 : Store)
    (h : StateManager.save_session s db = some db2) :
    ∃ s2, s2 ∈ StateManager.get_history none none db2 ∧
      s2.id = s.id ∧ s2.label = s.label ∧
      s2.duration_secs = s.duration_secs ∧ s2.origin = s.origin ∧
      s2.status = s.status := by
  simp only [StateManager.save_session] at h
  split at h
  case isTrue =>
    have hdb2 := Option.some.inj h
    subst hdb2
    refine ⟨rowToSession (sessionToRow s), ?_, rfl, rfl, rfl, ?_, ?_⟩
    · have hmem : sessionToRow s ∈ db ++ [sessionToRow s] :=
        List.mem_append.mpr (.inr (List.mem_singleton.mpr rfl))
      have hf : (db ++ [sessionToRow s]).filter
          (StateManager.inBounds none none) = db ++ [sessionToRow s] :=
        List.filter_eq_self.mpr (fun a _ => rfl)
      have hperm := List.perm_insertionSort StateManager.rowGe
        ((db ++ [sessionToRow s]).filter (StateManager.inBounds none none))
      have hmem2 : sessionToRow s ∈ (db ++ [sessionToRow s]).filter
          (StateManager.inBounds none none) := by
        rw [hf]
        exact hmem
      exact List.mem_map_of_mem rowToSession (hperm.mem_iff.mpr hmem2)
    · cases ho : s.origin <;>
        simp [rowToSession, sessionToRow, originDbg, parseOrigin, ho]
    · cases hs : s.status <;>
        simp [rowToSession, sessionToRow, statusDbg, parseStatus, hs]
  case isFalse => cases h

/-- A complete agent session for the round-trip example. -/
def demoSession : Session :=
  { id := "sx".data, label := "AI Work".data, duration_secs := 1500,
    started_at := "2024-01-03T09:00:00Z".data,
    ended_at := some ("2024-01-03T09:25:00Z".data),
    origin := .Agent, status := .Completed }

/-- Concrete instantiation of `C9_save_roundtrip`: the demo session is
accepted by `save_session` on an empty store and found again. -/
theorem C9_save_roundtrip_witness :
    StateManager.save_session demoSession [] =
      some [sessionToRow demoSession] ∧
    (∃ s2, s2 ∈ StateManager.get_history none none
        [sessionToRow demoSession] ∧
      s2.id = demoSession.id ∧ s2.label = demoSession.label ∧
      s2.duration_secs = demoSession.duration_secs ∧
      s2.origin = demoSession.origin ∧ s2.status = demoSession.status) := by
  refine ⟨by decide, ?_⟩
  exact C9_save_roundtrip demoSession [] [sessionToRow demoSession]
    (by decide)

end LizardsBrains
